import Mathlib

/-
Shallow embedding of the pdrop proximity peer-discovery subsystem
(modules/pdrop: core/src/types.rs, core/src/discovery.rs,
discovery/src/ble.rs) together with theorems settling the specification
claims C1..C10 about it.

Conventions of the embedding:
* machine side effects of the platform libraries (btleplug, bluster) are
  represented by explicit environment records holding the outcome each
  platform call would produce, and by command lists recording which
  platform calls the backend issues;
* a Rust panic (an unwrap on a failed result) is modelled as the value
  none of an Option-typed outcome;
* a method taking a shared reference returns the backend state unchanged,
  which the model makes explicit by returning the state.
-/

/-! ## Platform library values (btleplug / bluster), abstracted -/

/-- An error value of the external btleplug library, abstracted to an
opaque code. -/
structure BtleplugError where
  code : Nat
deriving DecidableEq

/-- A btleplug platform Manager handle, abstracted. -/
structure Manager where
  id : Nat
deriving DecidableEq

/-- A bluster Peripheral (advertising hardware) handle, abstracted. -/
structure Peripheral where
  id : Nat
deriving DecidableEq

/-- A btleplug Adapter (central) handle, abstracted. -/
structure Adapter where
  id : Nat
deriving DecidableEq

/-! ## core/src/types.rs -/

/-- From types.rs: pub type PeerId = a static string slice. -/
abbrev PeerId := String

/-- The hash a PeerId admits (static string slices are hashable in the
source language). -/
def peerIdHash (p : PeerId) : UInt64 := String.hash p

/-! ## core/src/discovery.rs data model -/

/-- An identifier for a registered backend, used by the orchestrator to tag
events with their originating backend. -/
abbrev BackendId := Nat

/-- Modelled from the spec: PeerInfo lives in core/src/identity.rs, which is
not among the provided sources; per spec section 3 it carries an opaque
comparable identity, the transport(s) that reported it, and a last-seen
timestamp. -/
structure PeerInfo where
  id : PeerId
  transports : List BackendId
  lastSeen : Nat
deriving DecidableEq

/-- From discovery.rs: DiscoveryEvent is PeerDiscovered(PeerInfo) or
PeerLost(PeerInfo). -/
inductive DiscoveryEvent where
  | peerDiscovered (info : PeerInfo)
  | peerLost (info : PeerInfo)
deriving DecidableEq

/-! ## discovery/src/ble.rs: the BLE backend -/

/-- From ble.rs: the error enum of the Discovery implementation. -/
inductive BleDiscoveryError where
  | InitializationError (e : BtleplugError)
  | DiscoveryError (e : BtleplugError)
deriving DecidableEq

/-- From ble.rs: the error enum of the Advertiser implementation. Note it
has exactly two variants; no CapabilityUnsupported variant exists. -/
inductive BleAdvertiserError where
  | InitializationError (e : BtleplugError)
  | AdvertiserError (e : BtleplugError)
deriving DecidableEq

/-- From ble.rs: the From conversion of a btleplug error into
BleDiscoveryError, used by the question-mark operator in new(). -/
def bleDiscoveryErrorFrom (e : BtleplugError) : BleDiscoveryError :=
  BleDiscoveryError.InitializationError e

/-- From ble.rs: the BleDiscovery struct — a platform manager plus an
optional peripheral handle. -/
structure BleDiscovery where
  manager : Manager
  peripheral : Option Peripheral
deriving DecidableEq

/-- The outcomes the platform produces during BleDiscovery::new: the result
of platform Manager::new and of bluster Peripheral::new. -/
structure NewEnv where
  managerResult : Except BtleplugError Manager
  peripheralResult : Except BtleplugError Peripheral

/-- From ble.rs BleDiscovery::new: the manager result is propagated with the
question-mark operator (through bleDiscoveryErrorFrom), while the peripheral
result is converted with ok(), discarding any failure. -/
def bleDiscoveryNew (env : NewEnv) : Except BleDiscoveryError BleDiscovery :=
  match env.managerResult with
  | .error e => .error (bleDiscoveryErrorFrom e)
  | .ok m =>
    .ok ⟨m, match env.peripheralResult with
            | .ok p => some p
            | .error _ => none⟩

/-- A platform call issued by the scanning path of the backend. -/
inductive PlatformCmd where
  | adapters
  | scanStart (a : Adapter)
deriving DecidableEq

/-- The outcomes the platform produces during start_scan: the result of
Manager::adapters and of Central::start_scan per adapter. -/
structure ScanEnv where
  adaptersResult : Except BtleplugError (List Adapter)
  scanCallResult : Adapter → Except BtleplugError Unit

/-- From ble.rs Discovery::start_scan: enumerate adapters (unwrap), take the
first adapter (unwrap on nth(0)), invoke the platform scan (unwrap), return
Ok(()). Each unwrap on a failure is a panic, modelled as none. The receiver
is a shared reference, so the backend state is returned unchanged. -/
def startScan (s : BleDiscovery) (env : ScanEnv) :
    BleDiscovery × List PlatformCmd × Option (Except BleDiscoveryError Unit) :=
  match env.adaptersResult with
  | .error _ => (s, [PlatformCmd.adapters], none)
  | .ok [] => (s, [PlatformCmd.adapters], none)
  | .ok (a :: _) =>
    match env.scanCallResult a with
    | .error _ => (s, [PlatformCmd.adapters, PlatformCmd.scanStart a], none)
    | .ok _ => (s, [PlatformCmd.adapters, PlatformCmd.scanStart a],
        some (Except.ok ()))

/-- From ble.rs Discovery::stop_scan: an immediate Ok(()) that issues no
platform call and touches no state. -/
def stopScan (s : BleDiscovery) :
    BleDiscovery × List PlatformCmd × Except BleDiscoveryError Unit :=
  (s, [], Except.ok ())

/-- From ble.rs Discovery::poll_events: the returned stream is
futures::stream::empty(), an already-finished sequence, in every state. -/
def pollEvents (s : BleDiscovery) : BleDiscovery × List DiscoveryEvent :=
  (s, [])

/-- A platform call issued by the advertising path of the backend. -/
inductive AdvCmd where
  | advertiseStart (p : Peripheral) (name : String) (uuids : List Nat)
deriving DecidableEq

/-- From ble.rs Advertiser::broadcast: when a peripheral is present the
start_advertising call is issued (its result discarded by a wildcard let);
when it is absent nothing happens beyond a comment about logging. Either
way the function returns Ok(()). -/
def broadcast (s : BleDiscovery) :
    BleDiscovery × List AdvCmd × Except BleAdvertiserError Unit :=
  match s.peripheral with
  | some p => (s, [AdvCmd.advertiseStart p "pdrop-01" [0x180D]], Except.ok ())
  | none => (s, [], Except.ok ())

/-- From ble.rs Advertiser::stop_broadcast: an immediate Ok(()). -/
def stopBroadcast (s : BleDiscovery) :
    BleDiscovery × List AdvCmd × Except BleAdvertiserError Unit :=
  (s, [], Except.ok ())

/-! ## Orchestrator merge engine, modelled from the spec (section 4.4) -/

/-- Modelled from the spec: the orchestrator is not among the provided
sources; per section 3 a merged peer table entry maps a peer identity to the
set of contributing backend ids and a last-seen timestamp. -/
structure MergeEntry where
  transports : List BackendId
  lastSeen : Nat
deriving DecidableEq

/-- Modelled from the spec: the merged peer table, a map from peer identity
to its entry. -/
abbrev MergeTable := PeerId → Option MergeEntry

/-- Modelled from the spec: a raw backend event implicitly tagged with its
originating backend id and arrival time (spec section 4.4). -/
inductive RawTagged where
  | discovered (b : BackendId) (p : PeerId) (time : Nat)
  | lost (b : BackendId) (p : PeerId) (time : Nat)
deriving DecidableEq

/-- Add a backend id to a transports set (no duplicates). -/
def insertB (b : BackendId) (l : List BackendId) : List BackendId :=
  if b ∈ l then l else b :: l

/-- Modelled from the spec: one step of the merge algorithm of section 4.4.
On PeerDiscovered from backend b: no entry for the identity inserts one with
transports = that backend and emits one merged PeerDiscovered; an existing
entry only gets last_seen updated and b added to transports, emitting
nothing. On PeerLost from b: b is removed from the transports of the entry;
a merged PeerLost is emitted only when transports becomes empty. -/
def mergeStep (t : MergeTable) : RawTagged → MergeTable × List DiscoveryEvent
  | .discovered b p time =>
    match t p with
    | none =>
      (fun q => if q = p then some ⟨[b], time⟩ else t q,
        [DiscoveryEvent.peerDiscovered ⟨p, [b], time⟩])
    | some ent =>
      (fun q => if q = p then some ⟨insertB b ent.transports, time⟩ else t q,
        [])
  | .lost b p _ =>
    match t p with
    | none => (t, [])
    | some ent =>
      let remaining := ent.transports.filter (fun x => x != b)
      if remaining.isEmpty then
        (fun q => if q = p then none else t q,
          [DiscoveryEvent.peerLost ⟨p, [], ent.lastSeen⟩])
      else
        (fun q => if q = p then some ⟨remaining, ent.lastSeen⟩ else t q, [])

/-- Modelled from the spec: the merge engine folded over a list of raw
tagged events, collecting the merged output events in order. -/
def mergeRun (t : MergeTable) : List RawTagged → MergeTable × List DiscoveryEvent
  | [] => (t, [])
  | e :: es =>
    let r1 := mergeStep t e
    let r2 := mergeRun r1.1 es
    (r2.1, r1.2 ++ r2.2)

/-- Merged output events that are a PeerDiscovered for identity p. -/
def isDiscoveredFor (p : PeerId) : DiscoveryEvent → Bool
  | .peerDiscovered i => i.id == p
  | .peerLost _ => false

/-- Merged output events that are a PeerLost for identity p. -/
def isLostFor (p : PeerId) : DiscoveryEvent → Bool
  | .peerLost i => i.id == p
  | .peerDiscovered _ => false

/-! ## Concrete values used by witnesses and counterexamples -/

/-- A concrete manager handle. -/
def mgr0 : Manager := ⟨0⟩

/-- A concrete adapter handle. -/
def adp0 : Adapter := ⟨0⟩

/-- A concrete backend with no peripheral (no advertising hardware). -/
def ble0 : BleDiscovery := ⟨mgr0, none⟩

/-- A platform that reports one adapter and accepts scan calls. -/
def scanEnv0 : ScanEnv := ⟨Except.ok [adp0], fun _ => Except.ok ()⟩

/-- An empty merged peer table. -/
def demoTable : MergeTable := fun _ => none

/-- Two sightings of the same identity from two distinct backends. -/
def demoEvents : List RawTagged :=
  [RawTagged.discovered 0 "P1" 0, RawTagged.discovered 1 "P1" 1]

/-! ## Claim theorems -/

/-- C1: on a backend whose advertising hardware is absent (peripheral is
none), broadcast issues no platform command, changes no state, and still
resolves to success — the silent no-op success the spec forbids; moreover
the advertiser error type has only two variants, neither of which is a
CapabilityUnsupported, so the mandated error cannot even be expressed. -/
theorem broadcast_without_hardware_silently_succeeds :
    (∀ m : Manager, broadcast ⟨m, none⟩ = (⟨m, none⟩, [], Except.ok ())) ∧
    (∀ e : BleAdvertiserError,
      (∃ x, e = BleAdvertiserError.InitializationError x) ∨
      (∃ x, e = BleAdvertiserError.AdvertiserError x)) := by
  refine ⟨fun m => rfl, fun e => ?_⟩
  cases e with
  | InitializationError x => exact Or.inl ⟨x, rfl⟩
  | AdvertiserError x => exact Or.inr ⟨x, rfl⟩

/-- C2: poll_events yields the empty, already-finished sequence in every
backend state, including the state produced by a successful start_scan —
the event sequence terminates immediately, where the claim requires a
non-terminating sequence while the backend is scanning. -/
theorem pollEvents_empty_in_every_state :
    ∀ (s : BleDiscovery) (env : ScanEnv),
      (pollEvents s).2 = [] ∧ (pollEvents ((startScan s env).1)).2 = [] :=
  fun _ _ => ⟨rfl, rfl⟩

/-- C5: start_scan unwraps the three platform results, so the model yields
none (a panic), not an Err value, whenever adapter enumeration fails, the
adapter list is empty, or the platform scan call fails. -/
theorem startScan_panics_on_platform_failure :
    (∀ (s : BleDiscovery) (f : Adapter → Except BtleplugError Unit)
        (e : BtleplugError),
      (startScan s ⟨Except.error e, f⟩).2.2 = none) ∧
    (∀ (s : BleDiscovery) (f : Adapter → Except BtleplugError Unit),
      (startScan s ⟨Except.ok [], f⟩).2.2 = none) ∧
    (∀ (s : BleDiscovery) (a : Adapter) (rest : List Adapter)
        (e : BtleplugError),
      (startScan s ⟨Except.ok (a :: rest), fun _ => Except.error e⟩).2.2
        = none) :=
  ⟨fun _ _ _ => rfl, fun _ _ => rfl, fun _ _ _ _ => rfl⟩

/-- C6: BleDiscovery::new resolves either to Ok with a backend or to Err
carrying the InitializationError variant, and it never returns the
DiscoveryError variant. -/
theorem bleDiscoveryNew_ok_or_initializationError :
    (∀ env : NewEnv,
      (∃ b, bleDiscoveryNew env = Except.ok b) ∨
      (∃ e, bleDiscoveryNew env
        = Except.error (BleDiscoveryError.InitializationError e))) ∧
    (∀ (env : NewEnv) (e : BtleplugError),
      bleDiscoveryNew env
        ≠ Except.error (BleDiscoveryError.DiscoveryError e)) := by
  constructor
  · intro env
    cases h : env.managerResult with
    | error e =>
      exact Or.inr ⟨e, by simp [bleDiscoveryNew, h, bleDiscoveryErrorFrom]⟩
    | ok m =>
      cases hp : env.peripheralResult with
      | ok p => exact Or.inl ⟨⟨m, some p⟩, by simp [bleDiscoveryNew, h, hp]⟩
      | error x => exact Or.inl ⟨⟨m, none⟩, by simp [bleDiscoveryNew, h, hp]⟩
  · intro env e h
    cases hm : env.managerResult with
    | error x =>
      rw [bleDiscoveryNew, hm] at h
      simp [bleDiscoveryErrorFrom] at h
    | ok m =>
      rw [bleDiscoveryNew, hm] at h
      simp at h

/-- C7: stop_scan resolves to success from every backend state (scanning or
not), leaves the state unchanged, and calling it twice produces exactly the
state and result of calling it once. -/
theorem stopScan_idempotent_and_safe :
    ∀ s : BleDiscovery,
      stopScan s = (s, [], Except.ok ()) ∧
      stopScan ((stopScan s).1) = (s, [], Except.ok ()) :=
  fun _ => ⟨rfl, rfl⟩

/-- C8: the peer identity type admits a decidable equality and a hash, and
equal identities hash alike, so equal identities stand for one peer. -/
theorem peerId_comparable_and_hashable :
    (∀ a b : PeerId, a = b ∨ a ≠ b) ∧
    (∀ a b : PeerId, a = b → peerIdHash a = peerIdHash b) :=
  ⟨fun a b => eq_or_ne a b, fun _ _ h => congrArg peerIdHash h⟩

/-- C9: construction discards a peripheral acquisition failure — when the
platform manager is obtained, new succeeds with peripheral none if
Peripheral::new failed and with the peripheral if it succeeded; new fails
(with InitializationError) only when Manager::new fails. -/
theorem bleDiscoveryNew_discards_peripheral_failure :
    (∀ (e : BtleplugError) (pr : Except BtleplugError Peripheral),
      bleDiscoveryNew ⟨Except.error e, pr⟩
        = Except.error (BleDiscoveryError.InitializationError e)) ∧
    (∀ (m : Manager) (e : BtleplugError),
      bleDiscoveryNew ⟨Except.ok m, Except.error e⟩ = Except.ok ⟨m, none⟩) ∧
    (∀ (m : Manager) (p : Peripheral),
      bleDiscoveryNew ⟨Except.ok m, Except.ok p⟩ = Except.ok ⟨m, some p⟩) :=
  ⟨fun _ _ => rfl, fun _ _ => rfl, fun _ _ => rfl⟩

/-- C10: the From conversion maps every btleplug error to the
InitializationError variant and never to the DiscoveryError variant, so
operation failures routed through it are indistinguishable from
construction failures. -/
theorem bleDiscoveryErrorFrom_always_initialization :
    (∀ e : BtleplugError,
      bleDiscoveryErrorFrom e = BleDiscoveryError.InitializationError e) ∧
    (∀ e x : BtleplugError,
      bleDiscoveryErrorFrom e ≠ BleDiscoveryError.DiscoveryError x) :=
  ⟨fun _ => rfl, fun _ _ h => BleDiscoveryError.noConfusion h⟩

/-- C3 counterexample: on a platform with one adapter that accepts every
scan call, the first and the second invocation of start_scan both report
success, yet the second invocation issues the adapter enumeration and the
platform scan-start again, so the platform commands accumulated by the two
calls are not those of the first call alone — the second call is not free
of further observable effect as the claim states. -/
theorem startScan_second_call_reissues_platform_scan :
    (startScan ble0 scanEnv0).2.2 = some (Except.ok ()) ∧
    (startScan ((startScan ble0 scanEnv0).1) scanEnv0).2.2
      = some (Except.ok ()) ∧
    (startScan ((startScan ble0 scanEnv0).1) scanEnv0).2.1
      = [PlatformCmd.adapters, PlatformCmd.scanStart adp0] ∧
    ¬ ((startScan ble0 scanEnv0).2.1
        ++ (startScan ((startScan ble0 scanEnv0).1) scanEnv0).2.1
        = (startScan ble0 scanEnv0).2.1) :=
  ⟨rfl, rfl, rfl, by decide⟩

/-- C3 amended: when the platform adapter enumeration yields a first adapter
and the platform scan call on it succeeds, invoking start_scan a second time
returns success, leaves the backend state unchanged, and neither duplicates
nor alters the poll_events sequence; but the backend keeps no scanning flag,
so the second invocation re-issues the adapter enumeration and the platform
scan-start command instead of being observably effect-free. -/
theorem startScan_repeat_succeeds_but_reissues (s : BleDiscovery)
    (env : ScanEnv) (a : Adapter) (rest : List Adapter)
    (hA : env.adaptersResult = Except.ok (a :: rest))
    (hS : env.scanCallResult a = Except.ok ()) :
    (startScan s env).1 = s ∧
    (startScan s env).2.2 = some (Except.ok ()) ∧
    (startScan ((startScan s env).1) env).1 = s ∧
    (startScan ((startScan s env).1) env).2.2 = some (Except.ok ()) ∧
    (pollEvents ((startScan ((startScan s env).1) env).1)).2
      = (pollEvents ((startScan s env).1)).2 ∧
    (startScan ((startScan s env).1) env).2.1
      = [PlatformCmd.adapters, PlatformCmd.scanStart a] := by
  refine ⟨?_, ?_, ?_, ?_, ?_, ?_⟩ <;> simp [startScan, pollEvents, hA, hS]

/-- Witness for the amended C3 statement at the concrete backend ble0 and
platform scanEnv0. -/
theorem startScan_repeat_succeeds_but_reissues_witness :
    scanEnv0.adaptersResult = Except.ok (adp0 :: []) ∧
    scanEnv0.scanCallResult adp0 = Except.ok () ∧
    ((startScan ble0 scanEnv0).1 = ble0 ∧
      (startScan ble0 scanEnv0).2.2 = some (Except.ok ()) ∧
      (startScan ((startScan ble0 scanEnv0).1) scanEnv0).1 = ble0 ∧
      (startScan ((startScan ble0 scanEnv0).1) scanEnv0).2.2
        = some (Except.ok ()) ∧
      (pollEvents ((startScan ((startScan ble0 scanEnv0).1) scanEnv0).1)).2
        = (pollEvents ((startScan ble0 scanEnv0).1)).2 ∧
      (startScan ((startScan ble0 scanEnv0).1) scanEnv0).2.1
        = [PlatformCmd.adapters, PlatformCmd.scanStart adp0]) :=
  ⟨rfl, rfl, startScan_repeat_succeeds_but_reissues ble0 scanEnv0 adp0 [] rfl rfl⟩

/-- Helper: once an entry for identity p exists, processing any further
PeerDiscovered events for p emits no merged event for p, keeps an entry for
p in the table, and touches no other identity. -/
lemma mergeRun_existing_entry (p : PeerId) (es : List RawTagged) :
    ∀ (t : MergeTable) (ent : MergeEntry), t p = some ent →
    (∀ e ∈ es, ∃ b time, e = RawTagged.discovered b p time) →
    ((mergeRun t es).2.filter (isDiscoveredFor p)).length = 0 ∧
    ((mergeRun t es).2.filter (isLostFor p)).length = 0 ∧
    (∃ ent2, (mergeRun t es).1 p = some ent2) ∧
    (∀ q, q ≠ p → (mergeRun t es).1 q = t q) := by
  induction es with
  | nil =>
    intro t ent h0 _
    exact ⟨rfl, rfl, ⟨ent, h0⟩, fun _ _ => rfl⟩
  | cons e es ih =>
    intro t ent h0 hall
    obtain ⟨b, time, rfl⟩ := hall e (List.mem_cons_self e es)
    have hstep : mergeStep t (RawTagged.discovered b p time)
        = (fun q => if q = p then some ⟨insertB b ent.transports, time⟩
            else t q, []) := by
      simp [mergeStep, h0]
    have hent1 : ((fun q => if q = p then
          some (⟨insertB b ent.transports, time⟩ : MergeEntry)
          else t q) : MergeTable) p
        = some ⟨insertB b ent.transports, time⟩ := by
      simp
    have htail := ih
      (fun q => if q = p then some ⟨insertB b ent.transports, time⟩ else t q)
      ⟨insertB b ent.transports, time⟩ hent1
      (fun e he => hall e (List.mem_cons_of_mem _ he))
    have hrun1 : (mergeRun t (RawTagged.discovered b p time :: es)).1
        = (mergeRun (fun q => if q = p then
            some ⟨insertB b ent.transports, time⟩ else t q) es).1 := by
      show (mergeRun (mergeStep t (RawTagged.discovered b p time)).1 es).1 = _
      rw [hstep]
    have hrun2 : (mergeRun t (RawTagged.discovered b p time :: es)).2
        = (mergeRun (fun q => if q = p then
            some ⟨insertB b ent.transports, time⟩ else t q) es).2 := by
      show (mergeStep t (RawTagged.discovered b p time)).2
          ++ (mergeRun (mergeStep t (RawTagged.discovered b p time)).1 es).2
          = _
      rw [hstep]
      rfl
    refine ⟨?_, ?_, ?_, ?_⟩
    · rw [hrun2]
      exact htail.1
    · rw [hrun2]
      exact htail.2.1
    · rw [hrun1]
      exact htail.2.2.1
    · intro q hq
      rw [hrun1, htail.2.2.2 q hq]
      simp [hq]

/-- C4: processing a nonempty run of PeerDiscovered events that all carry
the same identity p (from any backends, at any arrival times) against a
table with no entry for p emits exactly one merged PeerDiscovered for p and
no merged PeerLost for p, leaves an entry for p in the table, and touches
the entry of no other identity: the first sighting inserts and emits, every
later sighting is absorbed into the entry and emits nothing. -/
theorem merge_dedup_single_discovered (p : PeerId) (t : MergeTable)
    (es : List RawTagged) (h0 : t p = none) (hne : es ≠ [])
    (hall : ∀ e ∈ es, ∃ b time, e = RawTagged.discovered b p time) :
    ((mergeRun t es).2.filter (isDiscoveredFor p)).length = 1 ∧
    ((mergeRun t es).2.filter (isLostFor p)).length = 0 ∧
    (∃ ent, (mergeRun t es).1 p = some ent) ∧
    (∀ q, q ≠ p → (mergeRun t es).1 q = t q) := by
  cases es with
  | nil => exact absurd rfl hne
  | cons e es =>
    obtain ⟨b, time, rfl⟩ := hall e (List.mem_cons_self e es)
    have hstep : mergeStep t (RawTagged.discovered b p time)
        = (fun q => if q = p then some ⟨[b], time⟩ else t q,
          [DiscoveryEvent.peerDiscovered ⟨p, [b], time⟩]) := by
      simp [mergeStep, h0]
    have hent1 : ((fun q => if q = p then some (⟨[b], time⟩ : MergeEntry)
          else t q) : MergeTable) p = some ⟨[b], time⟩ := by
      simp
    have htail := mergeRun_existing_entry p es
      (fun q => if q = p then some ⟨[b], time⟩ else t q)
      ⟨[b], time⟩ hent1
      (fun e he => hall e (List.mem_cons_of_mem _ he))
    have hrun1 : (mergeRun t (RawTagged.discovered b p time :: es)).1
        = (mergeRun (fun q => if q = p then some ⟨[b], time⟩ else t q) es).1
        := by
      show (mergeRun (mergeStep t (RawTagged.discovered b p time)).1 es).1 = _
      rw [hstep]
    have hrun2 : (mergeRun t (RawTagged.discovered b p time :: es)).2
        = DiscoveryEvent.peerDiscovered ⟨p, [b], time⟩
          :: (mergeRun (fun q => if q = p then some ⟨[b], time⟩ else t q)
              es).2 := by
      show (mergeStep t (RawTagged.discovered b p time)).2
          ++ (mergeRun (mergeStep t (RawTagged.discovered b p time)).1 es).2
          = _
      rw [hstep]
      rfl
    refine ⟨?_, ?_, ?_, ?_⟩
    · rw [hrun2]
      simp only [List.filter_cons]
      have hx : isDiscoveredFor p
          (DiscoveryEvent.peerDiscovered ⟨p, [b], time⟩) = true := by
        simp [isDiscoveredFor]
      rw [if_pos hx, List.length_cons, htail.1]
    · rw [hrun2]
      simp only [List.filter_cons]
      have hx : isLostFor p
          (DiscoveryEvent.peerDiscovered ⟨p, [b], time⟩) = false := by
        simp [isLostFor]
      rw [hx]
      simpa using htail.2.1
    · rw [hrun1]
      exact htail.2.2.1
    · intro q hq
      rw [hrun1, htail.2.2.2 q hq]
      simp [hq]

/-- Witness for C4 at a concrete run: the empty table and two sightings of
identity P1 from backends 0 and 1. -/
theorem merge_dedup_single_discovered_witness :
    ((mergeRun demoTable demoEvents).2.filter (isDiscoveredFor "P1")).length
      = 1 ∧
    ((mergeRun demoTable demoEvents).2.filter (isLostFor "P1")).length = 0 ∧
    (∃ ent, (mergeRun demoTable demoEvents).1 "P1" = some ent) ∧
    (∀ q, q ≠ "P1" → (mergeRun demoTable demoEvents).1 q = demoTable q) :=
  merge_dedup_single_discovered "P1" demoTable demoEvents rfl
    (by simp [demoEvents])
    (by
      intro e he
      simp only [demoEvents, List.mem_cons, List.not_mem_nil, or_false] at he
      rcases he with rfl | rfl
      · exact ⟨0, 0, rfl⟩
      · exact ⟨1, 1, rfl⟩)
